import Mathlib

set_option maxRecDepth 100000

/-!
Shallow embedding of the Automata change-orchestration pipeline:
`src/lib/guards.ts`, `src/lib/context.ts` (keyword extraction, AI-output
parsing, pull-request payload construction), `src/lib/validation.ts`,
`src/lib/audit.ts` (CI polling), and the webhook route
`src/app/api/webhook/jira/route.ts`.

JavaScript strings are modelled as Lean `String`s (ASCII-faithful: the
sources only compare against ASCII literals; `toLowerCase`, `trim` and the
`\s` character class agree with `strToLower`, `jsTrim` and
`Char.isWhitespace` below on the ASCII inputs that matter here).
-/

/-! ## Character-list helpers modelling JavaScript string methods -/

/-- Case-sensitive prefix test on character lists. -/
def charsStartWith : List Char → List Char → Bool
  | _, [] => true
  | [], _ :: _ => false
  | a :: as, b :: bs => a == b && charsStartWith as bs

/-- Substring occurrence test on character lists. -/
def charsHasSub : List Char → List Char → Bool
  | [], pat => pat.isEmpty
  | c :: rest, pat => charsStartWith (c :: rest) pat || charsHasSub rest pat

/-- JavaScript `s.includes(pat)`. -/
def strHasSub (s pat : String) : Bool := charsHasSub s.data pat.data

/-- JavaScript `s.startsWith(pat)`. -/
def strStartsWith (s pat : String) : Bool := charsStartWith s.data pat.data

/-- JavaScript `s.endsWith(pat)`. -/
def strEndsWith (s pat : String) : Bool := charsStartWith s.data.reverse pat.data.reverse

/-- Case-insensitive prefix test (JavaScript regex `/i` flag, ASCII folding). -/
def ciStartsWith : List Char → List Char → Bool
  | _, [] => true
  | [], _ :: _ => false
  | a :: as, b :: bs => (a.toLower == b.toLower) && ciStartsWith as bs

/-- Case-insensitive substring occurrence test. -/
def ciHasSub : List Char → List Char → Bool
  | [], pat => pat.isEmpty
  | c :: rest, pat => ciStartsWith (c :: rest) pat || ciHasSub rest pat

/-- Newline character. -/
def nlChar : Char := Char.ofNat 10

/-- Carriage-return character. -/
def crChar : Char := Char.ofNat 13

/-- Opening curly brace character (U+007B). -/
def obChar : Char := Char.ofNat 123

/-- Closing curly brace character (U+007D). -/
def cbChar : Char := Char.ofNat 125

/-- Double-quote character. -/
def quoteChar : Char := Char.ofNat 34

/-- Single-quote character. -/
def apostChar : Char := Char.ofNat 39

/-- Backtick character. -/
def btChar : Char := Char.ofNat 96

/-- Number of occurrences of a character in a string: models
    `(content.match(/c/g) || []).length` in `validation.ts`. -/
def countChar (c : Char) (s : String) : Nat := s.data.count c

/-- JavaScript `s.toLowerCase()` (ASCII folding), defined structurally so it
    reduces in the kernel. -/
def strToLower (s : String) : String := String.mk (s.data.map Char.toLower)

/-- JavaScript `s.trim()`: strips leading and trailing whitespace. -/
def jsTrim (s : String) : String :=
  String.mk (((s.data.dropWhile Char.isWhitespace).reverse.dropWhile
    Char.isWhitespace).reverse)

/-- Worker for `splitLines`. -/
def splitLinesAux : List Char → List Char → List String
  | [], acc => [String.mk acc.reverse]
  | c :: cs, acc =>
    if c == nlChar then String.mk acc.reverse :: splitLinesAux cs []
    else splitLinesAux cs (c :: acc)

/-- JavaScript `s.split('\n')`. -/
def splitLines (s : String) : List String := splitLinesAux s.data []

/-! ## src/lib/guards.ts -/

/-- `FileChange` from `src/lib/github.ts` (re-exported via `context.ts`):
    `{path, content, sha?}`. -/
structure FileChange where
  path : String
  content : String
  sha : Option String := none
deriving DecidableEq, Repr

/-- Blocked path patterns (case-insensitive), `guards.ts` lines 6-15. -/
def BLOCKED_PATTERNS : List String :=
  [".github/", "infra/", "auth/", "secrets", ".env",
   "package-lock.json", "yarn.lock", "pnpm-lock.yaml"]

/-- Maximum number of files that can be changed in a single PR. -/
def MAX_FILE_CHANGES : Nat := 3

/-- Safety guard validation result. -/
structure GuardResult where
  allowed : Bool
  reason : Option String := none
  blockedFiles : Option (List String) := none
deriving DecidableEq, Repr

/-- `isPathBlocked` from `guards.ts`: lowercased path contains a lowercased
    blocked pattern. -/
def isPathBlocked (path : String) : Bool :=
  BLOCKED_PATTERNS.any (fun pattern => strHasSub (strToLower path) (strToLower pattern))

/-- Extensions accepted by the guard's path-format rule,
    regex `/\.(ts|tsx|js|jsx|json|md|css|scss|html)$/` in `guards.ts` line 70.
    The regex matches exactly when the path ends with a dot followed by one of
    the alternatives. -/
def guardExts : List String := ["ts", "tsx", "js", "jsx", "json", "md", "css", "scss", "html"]

/-- Guard extension test. -/
def hasGuardExt (path : String) : Bool :=
  guardExts.any (fun e => strEndsWith path ("." ++ e))

/-- Predicate of the `invalidPaths` filter in `validateFileChanges`
    (guards.ts lines 63-74): `..` traversal, absolute path, or extension
    outside the allowlist. -/
def isInvalidPath (path : String) : Bool :=
  strHasSub path ".." || strStartsWith path "/" || !(hasGuardExt path)

/-- `validateFileChanges` from `guards.ts` lines 42-87: count ceiling, then
    blocked-pattern denylist, then path-format rule; first failure wins. -/
def validateFileChanges (fileChanges : List FileChange) : GuardResult :=
  if fileChanges.length > MAX_FILE_CHANGES then
    { allowed := false
      reason := some ("Exceeds maximum file change limit of " ++ toString MAX_FILE_CHANGES)
      blockedFiles := some (fileChanges.map (fun fc => fc.path)) }
  else
    let blockedFiles := fileChanges.filter (fun fc => isPathBlocked fc.path)
    if blockedFiles.length > 0 then
      { allowed := false
        reason := some "Contains files in blocked paths"
        blockedFiles := some (blockedFiles.map (fun fc => fc.path)) }
    else
      let invalidPaths := fileChanges.filter (fun fc => isInvalidPath fc.path)
      if invalidPaths.length > 0 then
        { allowed := false
          reason := some "Contains invalid file paths"
          blockedFiles := some (invalidPaths.map (fun fc => fc.path)) }
      else
        { allowed := true }

/-! ## src/types/ticket.ts -/

/-- `JiraTicket`: `{id, key, summary, description, priority?}`. -/
structure JiraTicket where
  id : String
  key : String
  summary : String
  description : String
  priority : Option String := none
deriving DecidableEq, Repr

/-! ## src/lib/context.ts : extractKeywords -/

/-- Stop-word set from `context.ts` line 36, copied verbatim. -/
def stopWords : List String :=
  ["the", "a", "an", "and", "or", "but", "in", "on", "at", "to", "for", "of",
   "with", "by", "is", "are", "was", "were", "be", "been", "have", "has",
   "had", "do", "does", "did", "will", "would", "should", "could", "may",
   "might", "must", "can", "this", "that", "these", "those", "i", "you",
   "he", "she", "it", "we", "they", "what", "which", "who", "when", "where",
   "why", "how", "all", "each", "every", "both", "few", "more", "most",
   "other", "some", "such", "no", "nor", "not", "only", "own", "same", "so",
   "than", "too", "very", "just", "now"]

/-- Worker for `jsSplitWs`; the Bool flag records whether the previous
    character was whitespace (so a run of separators yields one split). -/
def wsSplitAux : List Char → Bool → List Char → List String
  | [], _, acc => [String.mk acc.reverse]
  | c :: cs, inWs, acc =>
    if c.isWhitespace then
      if inWs then wsSplitAux cs true acc
      else String.mk acc.reverse :: wsSplitAux cs true []
    else wsSplitAux cs false (c :: acc)

/-- JavaScript `text.split(/\s+/)`: splits at each maximal whitespace run,
    producing an empty leading/trailing piece when the text starts/ends with
    whitespace (those pieces are later discarded by the length filter). -/
def jsSplitWs (s : String) : List String := wsSplitAux s.data false []

/-- Regex `/^[a-z]+$/` test from `context.ts` line 40. -/
def isAlphaToken (w : String) : Bool :=
  !w.isEmpty && w.data.all (fun c => decide ('a' ≤ c) && decide (c ≤ 'z'))

/-- The token stream of `extractKeywords` after both filters
    (`context.ts` lines 38-40), before `slice(0, 20)`. -/
def filteredTokens (ticket : JiraTicket) : List String :=
  let text := strToLower (ticket.summary ++ " " ++ ticket.description)
  ((jsSplitWs text).filter
      (fun word => decide (3 < word.length) && !(stopWords.contains word))).filter
    isAlphaToken

/-- Worker for `dedupFirst`, carrying the set of already-seen tokens. -/
def dedupFirstAux : List String → List String → List String
  | _, [] => []
  | seen, x :: xs =>
    if x ∈ seen then dedupFirstAux seen xs
    else x :: dedupFirstAux (x :: seen) xs

/-- JavaScript `[...new Set(list)]`: removes duplicates keeping the first
    occurrence, preserving order. -/
def dedupFirst (l : List String) : List String := dedupFirstAux [] l

/-- `extractKeywords` from `context.ts` lines 31-44: lower-case, split on
    whitespace, keep tokens longer than 3 that are not stop words, keep
    purely alphabetic tokens, `slice(0, 20)`, then deduplicate. -/
def extractKeywords (ticket : JiraTicket) : List String :=
  dedupFirst ((filteredTokens ticket).take 20)

/-- Modelled from the claim's words (C8): the same token pipeline but with
    deduplication performed before the cap of 20 terms.  Used only to compare
    the claimed behaviour with the source behaviour. -/
def extractKeywordsClaim (ticket : JiraTicket) : List String :=
  (dedupFirst (filteredTokens ticket)).take 20

/-! ## src/lib/context.ts : parseAICodeOutput -/

/-- JavaScript truthiness of the parser's `currentPath` variable: both `null`
    and the empty string are falsy. -/
def jsTruthy : Option String → Bool
  | none => false
  | some s => !s.isEmpty

/-- Tail test for regex `/^File:\s*(.+)$/i` applied after the 5-character
    prefix.  `\s*` may absorb whitespace (including `\r`), and `(.+)$` must
    then cover every remaining character to the end of the line with
    characters matched by `.` (which excludes `\r`); lines never contain
    `\n` because the input was split on `\n`.  So the tail matches exactly
    when everything up to and including the last `\r` (if any) is whitespace
    and at least one character remains after it. -/
def fileTailOk (rest : List Char) : Bool :=
  let tailLen := (rest.reverse.takeWhile (fun c => c != crChar)).length
  if tailLen == rest.length then !rest.isEmpty
  else (tailLen != 0) && (rest.take (rest.length - tailLen)).all Char.isWhitespace

/-- Capture of `/^File:\s*(.+)$/i` followed by the `.trim()` applied at both
    use sites in `parseAICodeOutput`; trimming the capture equals trimming
    the whole remainder after `File:`, since `\s*` only absorbs whitespace. -/
def fileCapture (line : String) : Option String :=
  let cs := line.data
  if ciStartsWith cs ("File:").data && fileTailOk (cs.drop 5) then
    some (jsTrim (String.mk (cs.drop 5)))
  else none

/-- Regex `\w` character class. -/
def isWordChar (c : Char) : Bool := c.isAlphanum || c == '_'

/-- Capture of `/^```\w*:?(.+)$/` (and match test of `/^```(\w+)?:?(.+)$/`,
    which succeeds on exactly the same lines).  After the three backticks,
    with remainder `r`: no match when `r` is empty or contains `\r` (the
    anchored `(.+)` cannot cover a `\r`); if `r` is entirely word
    characters, backtracking leaves the last character as the capture; if a
    colon follows the word run, the capture is what follows the colon, or
    `":"` itself when nothing follows; otherwise the capture is everything
    after the word run. -/
def fenceCapture (line : String) : Option String :=
  let cs := line.data
  if strStartsWith line "```" then
    let r := cs.drop 3
    if r.isEmpty || r.contains crChar then none
    else
      let w := (r.takeWhile isWordChar).length
      if w == r.length then some (String.mk (r.drop (r.length - 1)))
      else
        let rest := r.drop w
        if rest.head? == some ':' then
          if (rest.drop 1).isEmpty then some (String.mk rest)
          else some (String.mk (rest.drop 1))
        else some (String.mk rest)
  else none

/-- Parser loop state of `parseAICodeOutput`. -/
structure ParseState where
  changes : List FileChange
  currentPath : Option String
  currentContent : List String
deriving Repr

/-- Flush of the current segment: `if (currentPath && currentContent.length
    > 0) changes.push({path: currentPath.trim(), content:
    currentContent.join('\n')})`. -/
def flushSegment (st : ParseState) : List FileChange :=
  match st.currentPath with
  | some p =>
    if !p.isEmpty && !st.currentContent.isEmpty then
      st.changes ++ [{ path := jsTrim p, content := String.intercalate "\n" st.currentContent }]
    else st.changes
  | none => st.changes

/-- `line.includes('import') || line.includes('export') ||
    line.includes('function')`. -/
def codeIndicator (line : String) : Bool :=
  strHasSub line "import" || strHasSub line "export" || strHasSub line "function"

/-- One iteration of the line loop in `parseAICodeOutput`
    (`context.ts` lines 555-598). -/
def parseStep (st : ParseState) (line : String) : ParseState :=
  if (fileCapture line).isSome || (fenceCapture line).isSome then
    let changes := flushSegment st
    match (fileCapture line).orElse (fun _ => fenceCapture line) with
    | some p => { changes := changes, currentPath := some (jsTrim p), currentContent := [] }
    | none => { changes := changes, currentPath := st.currentPath,
                currentContent := st.currentContent }
  else if strStartsWith (jsTrim line) "```" then st
  else if jsTruthy st.currentPath then
    { st with currentContent := st.currentContent ++ [line] }
  else if codeIndicator line then
    let newPath :=
      if st.changes.isEmpty && st.currentContent.isEmpty then some "lib/fix.ts"
      else st.currentPath
    if jsTruthy newPath then
      { st with currentPath := newPath, currentContent := st.currentContent ++ [line] }
    else { st with currentPath := newPath }
  else st

/-- Extensions accepted by the parser's post-filter, regex
    `/\.(ts|tsx|js|jsx|json|md)$/` in `context.ts` line 627. -/
def parserExts : List String := ["ts", "tsx", "js", "jsx", "json", "md"]

/-- Parser post-filter extension test. -/
def hasParserExt (path : String) : Bool :=
  parserExts.any (fun e => strEndsWith path ("." ++ e))

/-- The `validChanges` filter predicate of `parseAICodeOutput`
    (`context.ts` lines 619-632). -/
def isValidChange (change : FileChange) : Bool :=
  !(strHasSub change.path "..") && !(strStartsWith change.path "/") &&
    hasParserExt change.path

/-- The line scan of `parseAICodeOutput` including the final flush
    (`context.ts` lines 549-606): the segments produced before the
    empty-result fallback and the path post-filter. -/
def scanSegments (aiOutput : String) : List FileChange :=
  flushSegment ((splitLines aiOutput).foldl parseStep
    { changes := [], currentPath := none, currentContent := [] })

/-- Segments plus the fallback of `context.ts` lines 608-616: when the scan
    produced nothing and the trimmed output is non-empty, the whole trimmed
    output becomes one change under `lib/ai-fix.ts`. -/
def rawChanges (aiOutput : String) : List FileChange :=
  let changes := scanSegments aiOutput
  if changes.isEmpty && !(jsTrim aiOutput).isEmpty then
    [{ path := "lib/ai-fix.ts", content := jsTrim aiOutput }]
  else changes

/-- `parseAICodeOutput` from `context.ts` lines 548-635. -/
def parseAICodeOutput (aiOutput : String) : List FileChange :=
  (rawChanges aiOutput).filter isValidChange

/-! ## src/lib/context.ts : createPullRequest -/

/-- JavaScript `x || d` for an optional string (empty string is falsy). -/
def jsOrElse (v : Option String) (d : String) : String :=
  match v with
  | some s => if s.isEmpty then d else s
  | none => d

/-- The `prBody` template literal of `createPullRequest`
    (`context.ts` lines 677-692). -/
def prBody (ticket : JiraTicket) (fileChanges : List FileChange)
    (aiSummary : Option String) : String :=
  let modifiedFiles :=
    String.intercalate "\n" (fileChanges.map (fun fc => "- `" ++ fc.path ++ "`"))
  "## Jira Ticket\n**Key:** " ++ ticket.key ++
    "\n**Summary:** " ++ ticket.summary ++
    "\n**Priority:** " ++ jsOrElse ticket.priority "Not specified" ++
    "\n\n## Description\n" ++ ticket.description ++ "\n\n" ++
    (match aiSummary with
     | some s => if s.isEmpty then "" else "## AI-Generated Summary\n" ++ s ++ "\n\n"
     | none => "") ++
    "## Modified Files\n" ++ modifiedFiles ++
    "\n\n---\n\n**Note:** This PR was generated by Automata and requires human review.\n\n**⚠️ Please review all changes before merging.**"

/-- The JSON request body sent by `createPullRequest` to
    `POST /repos/{owner}/{repo}/pulls` (`context.ts` lines 694-706).
    `draft = none` records that the source sends no `draft` field at all. -/
structure PullRequestPayload where
  title : String
  body : String
  head : String
  base : String
  draft : Option Bool
deriving DecidableEq, Repr

/-- `createPullRequest` from `context.ts` lines 666-714, modelled as the
    payload it sends: title, body, head branch, base branch, and no draft
    flag. -/
def createPullRequest (branch : String) (ticket : JiraTicket)
    (fileChanges : List FileChange) (aiSummary : Option String)
    (defaultBranch : String) : PullRequestPayload :=
  { title := "Fix: " ++ ticket.key ++ " – " ++ ticket.summary
    body := prBody ticket fileChanges aiSummary
    head := branch
    base := defaultBranch
    draft := none }

/-! ## src/lib/context.ts : extractErrorInfo

Each JavaScript regex of `extractErrorInfo` is hand-compiled into a
position matcher (`...AtPos`, returning the match relative to one start
position) combined with the leftmost scan `scanFind`, reproducing the
backtracking behaviour of `String.prototype.match`. -/

/-- Extracted error information (`ExtractedErrorInfo` interface). -/
structure ExtractedErrorInfo where
  errorMessage : Option String := none
  stackTrace : Option String := none
  testFailure : Option String := none
  errorType : Option String := none
  lineNumber : Option Nat := none
  filePath : Option String := none
deriving DecidableEq, Repr

/-- Leftmost-position scan: applies the position matcher at every start
    position from the left, returning the first success (the semantics of
    `description.match(regex)`). -/
def scanFind {α : Type} (f : List Char → Option α) : List Char → Option α
  | [] => f []
  | c :: rest =>
    match f (c :: rest) with
    | some r => some r
    | none => scanFind f rest

/-- First alternative of a case-insensitive keyword alternation that matches
    at this position; returns the matched length.  The alternations used by
    `extractErrorInfo` are pairwise prefix-exclusive, so the first match is
    the only one. -/
def ciFirstKeyword : List String → List Char → Option Nat
  | [], _ => none
  | k :: ks, s => if ciStartsWith s k.data then some k.length else ciFirstKeyword ks s

/-- Length of the maximal run matching `[:\s]`. -/
def colonWsRun (r : List Char) : Nat :=
  (r.takeWhile (fun c => c == ':' || c.isWhitespace)).length

/-- Length of the maximal run matching `\s`. -/
def wsRun (r : List Char) : Nat := (r.takeWhile Char.isWhitespace).length

/-- Maximal run matching `[^\n]`. -/
def nonNlRun (r : List Char) : List Char := r.takeWhile (fun c => c != nlChar)

/-- Backtracking for `[:\s]+([^\n]+)` (and, given a whitespace run length,
    for `\s+([^\n]+)`): the greedy run width descends from `k` to 1 until a
    non-empty `[^\n]+` remainder exists; returns the total number of
    characters consumed. -/
def cwTry : Nat → List Char → Option Nat
  | 0, _ => none
  | k + 1, r =>
    let b := nonNlRun (r.drop (k + 1))
    if b.isEmpty then cwTry k r else some (k + 1 + b.length)

/-- Like `cwTry` but returning the `([^\n]+)` capture itself. -/
def dropCapTry : Nat → List Char → Option (List Char)
  | 0, _ => none
  | k + 1, r =>
    let b := nonNlRun (r.drop (k + 1))
    if b.isEmpty then dropCapTry k r else some b

/-- Backtracking for `\s*([^\n]+)`: like `dropCapTry` but the run may also
    shrink to width 0. -/
def wsCapTryZ : Nat → List Char → Option (List Char)
  | 0, r =>
    let b := nonNlRun r
    if b.isEmpty then none else some b
  | k + 1, r =>
    let b := nonNlRun (r.drop (k + 1))
    if b.isEmpty then wsCapTryZ k r else some b

/-- Position matcher for stack-trace pattern 1,
    `/(?:Error|Exception|TypeError|ReferenceError|SyntaxError)[:\s]+([^\n]+)/i`;
    returns the full match (`matches[0]`). -/
def p1AtPos (s : List Char) : Option (List Char) :=
  match ciFirstKeyword ["Error", "Exception", "TypeError", "ReferenceError", "SyntaxError"] s with
  | none => none
  | some kLen =>
    let rest := s.drop kLen
    match cwTry (colonWsRun rest) rest with
    | none => none
    | some consumed => some (s.take (kLen + consumed))

/-- Position matcher for stack-trace pattern 2,
    `/at\s+([^\s]+)\s+\(([^:]+):(\d+):(\d+)\)/g`; returns the full first
    match.  Every quantifier boundary here is between complementary
    character classes, so greedy matching is deterministic. -/
def p2AtPos (s : List Char) : Option (List Char) :=
  if charsStartWith s ("at").data then
    let r1 := s.drop 2
    let w1 := wsRun r1
    if w1 == 0 then none else
    let r2 := r1.drop w1
    let nw := (r2.takeWhile (fun c => !c.isWhitespace)).length
    if nw == 0 then none else
    let r3 := r2.drop nw
    let w2 := wsRun r3
    if w2 == 0 then none else
    let r4 := r3.drop w2
    if r4.head? == some '(' then
      let r5 := r4.drop 1
      let ncol := (r5.takeWhile (fun c => c != ':')).length
      if ncol == 0 then none else
      let r6 := r5.drop ncol
      if r6.head? == some ':' then
        let d1 := ((r6.drop 1).takeWhile Char.isDigit).length
        if d1 == 0 then none else
        let r7 := (r6.drop 1).drop d1
        if r7.head? == some ':' then
          let d2 := ((r7.drop 1).takeWhile Char.isDigit).length
          if d2 == 0 then none else
          let r8 := (r7.drop 1).drop d2
          if r8.head? == some ')' then
            some (s.take (2 + w1 + nw + w2 + 1 + ncol + 1 + d1 + 1 + d2 + 1))
          else none
        else none
      else none
    else none
  else none

/-- Terminator test for `(?:\n\n|\n[A-Z]|$)` under the pattern's `/i` flag:
    number of characters the terminator consumes at this position, or
    `none`.  JavaScript's `i` flag case-folds character classes, so `[A-Z]`
    also matches `a`-`z`. -/
def termAt (u : List Char) : Option Nat :=
  match u with
  | [] => some 0
  | c1 :: rest =>
    if c1 == nlChar then
      match rest with
      | c2 :: _ =>
        if c2 == nlChar || (decide ('A' ≤ c2) && decide (c2 ≤ 'Z')) ||
            (decide ('a' ≤ c2) && decide (c2 ≤ 'z')) then some 2
        else none
      | [] => none
    else none

/-- Lazy search for `([\s\S]+?)` followed by the terminator: smallest body
    length `l ≥ 1` (counting from the given start) at which the terminator
    matches; always succeeds because `$` matches at the end. -/
def lazyFind : Nat → List Char → Option (Nat × Nat)
  | l, [] => some (l, 0)
  | l, c :: u' =>
    match termAt (c :: u') with
    | some k => some (l, k)
    | none => lazyFind (l + 1) u'

/-- Position matcher for stack-trace pattern 3,
    `/(?:Stack trace|StackTrace):\s*([\s\S]+?)(?:\n\n|\n[A-Z]|$)/i`; returns
    the full match including the consumed terminator text.  The two keyword
    alternatives are mutually exclusive at any position.  When everything
    after the colon is whitespace, `\s*` backtracks one character so that
    the lazy body is non-empty. -/
def p3AtPos (s : List Char) : Option (List Char) :=
  let kLen : Option Nat :=
    if ciStartsWith s ("Stack trace:").data then some 12
    else if ciStartsWith s ("StackTrace:").data then some 11
    else none
  match kLen with
  | none => none
  | some kl =>
    let r := s.drop kl
    if r.isEmpty then none
    else
      let wr := wsRun r
      let w := if wr == r.length then wr - 1 else wr
      let t := r.drop w
      match lazyFind 1 (t.drop 1) with
      | some (l, k) => some (s.take (kl + w + l + k))
      | none => none

/-- Position matcher for error-message pattern 1,
    `/(?:Error|Exception|Failed|Fails?):\s*([^\n]+)/i`; returns the capture
    (`match[1]`).  Folding the mandatory colon into each keyword keeps the
    alternatives prefix-exclusive, with `Fails` tried before `Fail` (greedy
    `s?`). -/
def m1AtPos (s : List Char) : Option (List Char) :=
  match ciFirstKeyword ["Error:", "Exception:", "Failed:", "Fails:", "Fail:"] s with
  | none => none
  | some kLen =>
    let rest := s.drop kLen
    wsCapTryZ (wsRun rest) rest

/-- Position matcher for error-message pattern 2,
    `/(?:Error message|Error Message):\s*([^\n]+)/i` (both alternatives
    coincide under `/i`); returns the capture. -/
def m2AtPos (s : List Char) : Option (List Char) :=
  if ciStartsWith s ("Error message:").data then
    let rest := s.drop 14
    wsCapTryZ (wsRun rest) rest
  else none

/-- One quoted alternative of error-message pattern 3: a quote, a span free
    of that quote containing `Error` case-insensitively, and a closing
    quote; returns the span (the capture group). -/
def quotedErr (q : Char) (s : List Char) : Option (List Char) :=
  match s with
  | c :: rest =>
    if c == q then
      let span := rest.takeWhile (fun x => x != q)
      if decide (span.length < rest.length) && ciHasSub span ("Error").data then some span
      else none
    else none
  | [] => none

/-- Position matcher for error-message pattern 3,
    `/"([^"]*Error[^"]*)"|'([^']*Error[^']*)'/i`; returns
    `match[1] || match[2]`. -/
def m3AtPos (s : List Char) : Option (List Char) :=
  match quotedErr quoteChar s with
  | some r => some r
  | none => quotedErr apostChar s

/-- Keyword alternation continued by `[:\s]+([^\n]+)`: when the suffix fails
    after one alternative, the regex backtracks into the next alternative. -/
def kwThenColonWsCap : List String → List Char → Option (List Char)
  | [], _ => none
  | k :: ks, r =>
    if ciStartsWith r k.data then
      match dropCapTry (colonWsRun (r.drop k.length)) (r.drop k.length) with
      | some b => some b
      | none => kwThenColonWsCap ks r
    else kwThenColonWsCap ks r

/-- Keyword alternation continued by `\s+([^\n]+)` (same backtracking). -/
def kwThenWsPlusCap : List String → List Char → Option (List Char)
  | [], _ => none
  | k :: ks, r =>
    if ciStartsWith r k.data then
      match dropCapTry (wsRun (r.drop k.length)) (r.drop k.length) with
      | some b => some b
      | none => kwThenWsPlusCap ks r
    else kwThenWsPlusCap ks r

/-- Position matcher for test-failure pattern 1,
    `/(?:Test|Spec)\s+(?:failed|failure|error)[:\s]+([^\n]+)/i`; returns the
    capture. -/
def t1AtPos (s : List Char) : Option (List Char) :=
  match ciFirstKeyword ["Test", "Spec"] s with
  | none => none
  | some kLen =>
    let r1 := s.drop kLen
    let w1 := wsRun r1
    if w1 == 0 then none
    else kwThenColonWsCap ["failed", "failure", "error"] (r1.drop w1)

/-- Position matcher for test-failure pattern 2,
    `/(?:FAIL|FAILED|ERROR)\s+([^\n]+)/i`; returns the capture (`FAIL` is
    tried before `FAILED`, backtracking into the alternation when `\s+`
    fails). -/
def t2AtPos (s : List Char) : Option (List Char) :=
  kwThenWsPlusCap ["FAIL", "FAILED", "ERROR"] s

/-- Position matcher for test-failure pattern 3,
    `/(?:Expected|Expected:)\s+([^\n]+)/i`; returns the capture. -/
def t3AtPos (s : List Char) : Option (List Char) :=
  kwThenWsPlusCap ["Expected", "Expected:"] s

/-- Position matcher for test-failure pattern 4,
    `/(?:Actual|Actual:)\s+([^\n]+)/i`; returns the capture. -/
def t4AtPos (s : List Char) : Option (List Char) :=
  kwThenWsPlusCap ["Actual", "Actual:"] s

/-- Character class `[\/\w\-\.]` of the file:line locator. -/
def classChar (c : Char) : Bool := c == '/' || isWordChar c || c == '-' || c == '.'

/-- JavaScript `parseInt` on a non-empty digit run. -/
def digitsToNat (ds : List Char) : Nat :=
  ds.foldl (fun n c => n * 10 + (c.toNat - 48)) 0

/-- Extension alternation `(?:ts|tsx|js|jsx)` of the file:line locator, for
    a fixed width of the leading character-class run: requires a literal
    dot, the extension, a colon and a non-empty digit run; returns the
    capture `([\/\w\-\.]+\.(?:ts|tsx|js|jsx))` and the parsed line number. -/
def extTry : List String → Nat → List Char → Option (List Char × Nat)
  | [], _, _ => none
  | e :: es, len, s =>
    let afterDot := s.drop (len + 1)
    if (s.drop len).head? == some '.' && charsStartWith afterDot e.data then
      let afterExt := afterDot.drop e.length
      if afterExt.head? == some ':' then
        let ds := (afterExt.drop 1).takeWhile Char.isDigit
        if ds.isEmpty then extTry es len s
        else some (s.take (len + 1 + e.length), digitsToNat ds)
      else extTry es len s
    else extTry es len s

/-- Greedy backtracking over the width of the `[\/\w\-\.]+` run, from the
    maximal run length down to 1. -/
def lenTry : Nat → List Char → Option (List Char × Nat)
  | 0, _ => none
  | len + 1, s =>
    match extTry ["ts", "tsx", "js", "jsx"] (len + 1) s with
    | some r => some r
    | none => lenTry len s

/-- Position matcher for the file:line locator
    `/([\/\w\-\.]+\.(?:ts|tsx|js|jsx)):(\d+)/`. -/
def fileLineAtPos (s : List Char) : Option (List Char × Nat) :=
  lenTry ((s.takeWhile classChar).length) s

/-- Position matcher for the error-type pattern
    `/(TypeError|ReferenceError|SyntaxError|Error|Exception|ValidationError|RuntimeError)/i`;
    returns the matched slice (original casing). -/
def errTypeAtPos (s : List Char) : Option (List Char) :=
  match ciFirstKeyword ["TypeError", "ReferenceError", "SyntaxError", "Error",
      "Exception", "ValidationError", "RuntimeError"] s with
  | some kLen => some (s.take kLen)
  | none => none

/-- `description.match(stackTracePatterns[0])`, full match. -/
def matchP1 (d : String) : Option String := (scanFind p1AtPos d.data).map String.mk

/-- `description.match(stackTracePatterns[1])`, first match of the `/g`
    scan (`matches[0]`). -/
def matchP2 (d : String) : Option String := (scanFind p2AtPos d.data).map String.mk

/-- `description.match(stackTracePatterns[2])`, full match. -/
def matchP3 (d : String) : Option String := (scanFind p3AtPos d.data).map String.mk

/-- `description.match(errorMessagePatterns[0])`, capture
    (`match[1]`, always non-empty hence truthy). -/
def matchM1 (d : String) : Option String := (scanFind m1AtPos d.data).map String.mk

/-- `description.match(errorMessagePatterns[1])`, capture. -/
def matchM2 (d : String) : Option String := (scanFind m2AtPos d.data).map String.mk

/-- `description.match(errorMessagePatterns[2])`, `match[1] || match[2]`. -/
def matchM3 (d : String) : Option String := (scanFind m3AtPos d.data).map String.mk

/-- `description.match(testFailurePatterns[0])`, capture. -/
def matchT1 (d : String) : Option String := (scanFind t1AtPos d.data).map String.mk

/-- `description.match(testFailurePatterns[1])`, capture. -/
def matchT2 (d : String) : Option String := (scanFind t2AtPos d.data).map String.mk

/-- `description.match(testFailurePatterns[2])`, capture. -/
def matchT3 (d : String) : Option String := (scanFind t3AtPos d.data).map String.mk

/-- `description.match(testFailurePatterns[3])`, capture. -/
def matchT4 (d : String) : Option String := (scanFind t4AtPos d.data).map String.mk

/-- `description.match(fileLinePattern)`: the path capture and the parsed
    line number. -/
def matchFileLine (d : String) : Option (List Char × Nat) := scanFind fileLineAtPos d.data

/-- `description.match(errorTypePattern)`, capture. -/
def matchErrType (d : String) : Option String := (scanFind errTypeAtPos d.data).map String.mk

/-- The `break`-on-first-match loops of the error-message and test-failure
    families: first pattern that matched wins. -/
def firstSome : List (Option String) → Option String
  | [] => none
  | some x :: _ => some x
  | none :: rest => firstSome rest

/-- `extractErrorInfo` from `context.ts` lines 240-307.  The stack-trace
    loop appends `matches[0] + '\n'` for every matching pattern; the
    error-message and test-failure loops take the first matching pattern and
    break; file path / line number and error type each come from a single
    pattern. -/
def extractErrorInfo (description : String) : ExtractedErrorInfo :=
  let stackParts := [matchP1 description, matchP2 description, matchP3 description].filterMap id
  { stackTrace :=
      if stackParts.isEmpty then none
      else some (stackParts.foldl (fun acc m => acc ++ m ++ "\n") "")
    errorMessage := firstSome [matchM1 description, matchM2 description, matchM3 description]
    testFailure := firstSome [matchT1 description, matchT2 description,
      matchT3 description, matchT4 description]
    filePath := (matchFileLine description).map (fun r => String.mk r.1)
    lineNumber := (matchFileLine description).map (fun r => r.2)
    errorType := matchErrType description }

/-! ## src/lib/validation.ts -/

/-- The `details` record of `ValidationResult`. -/
structure ValidationDetails where
  syntaxCheck : Option Bool := none
  typeCheck : Option Bool := none
  lintCheck : Option Bool := none
deriving DecidableEq, Repr

/-- `ValidationResult` from `validation.ts`. -/
structure ValidationResult where
  success : Bool
  errors : List String
  warnings : List String
  details : ValidationDetails
deriving DecidableEq, Repr

/-- The `codeFiles` filter regex `/\.(ts|tsx|js|jsx)$/`. -/
def isCodeFile (path : String) : Bool :=
  strEndsWith path ".ts" || strEndsWith path ".tsx" ||
    strEndsWith path ".js" || strEndsWith path ".jsx"

/-- `filePath.endsWith('.ts') || filePath.endsWith('.tsx')`. -/
def isTsPath (path : String) : Bool :=
  strEndsWith path ".ts" || strEndsWith path ".tsx"

/-- Splitter on `/` for POSIX path segments. -/
def splitSlashAux : List Char → List Char → List String
  | [], acc => [String.mk acc.reverse]
  | c :: cs, acc =>
    if c == '/' then String.mk acc.reverse :: splitSlashAux cs []
    else splitSlashAux cs (c :: acc)

/-- Segment normalization of POSIX `path.join` on an absolute path: empty
    and `.` segments are dropped, `..` pops the previous segment (and is
    dropped at the root). -/
def joinSegsAux : List String → List String → List String
  | stack, [] => stack.reverse
  | stack, s :: rest =>
    if s = "" ∨ s = "." then joinSegsAux stack rest
    else if s = ".." then
      match stack with
      | [] => joinSegsAux [] rest
      | _ :: tl => joinSegsAux tl rest
    else joinSegsAux (s :: stack) rest

/-- Representative of the temp directory
    `join(tmpdir(), 'automata-validation-' + Date.now())` used by
    `validateGeneratedCode` (POSIX `tmpdir()` is `/tmp`).  The timestamp is
    fixed to `0`: its digits sit in their own `/`-delimited segment whose
    text is `automata-validation-<digits>`, which for every digit string
    ends in a digit (never in `.ts`/`.tsx`) and contains neither `tsconfig`
    nor `package` (those patterns contain no `/`, so any occurrence lies
    inside a single segment), so no test below depends on the digits. -/
def tempValidationDir : String := "/tmp/automata-validation-0"

/-- POSIX `path.join(tempDir, p)` as computed in `validation.ts` line 57:
    concatenation with `/` followed by normalization (dropping empty and
    `.` segments, resolving `..`, keeping a trailing slash of `p`). -/
def joinedTempPath (p : String) : String :=
  let stack := joinSegsAux [] (splitSlashAux (tempValidationDir ++ "/" ++ p).data [])
  let base := "/" ++ String.intercalate "/" stack
  if strEndsWith p "/" = true ∧ base ≠ "/" then base ++ "/" else base

/-- Delimiter-balance errors for one file change (`validation.ts` lines
    67-95).  The source tests `filePath = join(tempDir, fc.path)` — the
    join-normalized temp path, not the raw `fc.path` (so `..` segments in
    `fc.path` are resolved before the `tsconfig`/`package` substring tests
    and the extension test). -/
def balanceErrors (fc : FileChange) : List String :=
  if isTsPath (joinedTempPath fc.path) &&
      !(strHasSub (joinedTempPath fc.path) "tsconfig") &&
      !(strHasSub (joinedTempPath fc.path) "package") then
    (if countChar obChar fc.content != countChar cbChar fc.content
      then [fc.path ++ ": Unmatched braces"] else []) ++
    (if countChar '(' fc.content != countChar ')' fc.content
      then [fc.path ++ ": Unmatched parentheses"] else []) ++
    (if countChar '[' fc.content != countChar ']' fc.content
      then [fc.path ++ ": Unmatched brackets"] else [])
  else []

/-- `validateGeneratedCode` from `validation.ts` lines 27-156, modelled on
    the non-I/O path (temp-dir writes succeed).  `projectRoot` records
    whether a project root was passed; `tscAvailable` / `eslintAvailable`
    record whether the `which tsc` / `which eslint` probes succeed — either
    way those probes only add warnings and set `details`, never errors. -/
def validateGeneratedCode (fileChanges : List FileChange)
    (projectRoot tscAvailable eslintAvailable : Bool) : ValidationResult :=
  let codeFiles := fileChanges.filter (fun fc => isCodeFile fc.path)
  if codeFiles.isEmpty then
    { success := true, errors := [], warnings := ["No code files to validate"], details := {} }
  else
    let errors := codeFiles.foldl (fun acc fc => acc ++ balanceErrors fc) []
    let success := errors.isEmpty
    let hasTypeScript := codeFiles.any (fun fc => isTsPath fc.path)
    let typeWarnings :=
      if hasTypeScript && projectRoot then
        if tscAvailable then ["Full type checking requires project context - skipped"]
        else ["TypeScript compiler not available - type check skipped"]
      else []
    let lintWarnings :=
      if projectRoot then
        if eslintAvailable then ["Full linting requires project context - skipped"]
        else ["ESLint not available - lint check skipped"]
      else []
    { success := success
      errors := errors
      warnings := typeWarnings ++ lintWarnings
      details :=
        { syntaxCheck := some success
          typeCheck := if hasTypeScript && projectRoot && tscAvailable then some true else none
          lintCheck := if projectRoot && eslintAvailable then some true else none } }

/-! ## src/lib/audit.ts : waitForCIChecks -/

/-- One check run as returned by the check-runs endpoint. -/
structure CheckRun where
  name : String
  status : String
  conclusion : Option String := none
deriving DecidableEq, Repr

/-- `CICheckStatus` from `audit.ts`. -/
structure CICheckStatus where
  status : String
  conclusion : Option String := none
  checks : Option (List CheckRun) := none
deriving DecidableEq, Repr

/-- The combined-commit-status phase of one poll iteration (`audit.ts`
    lines 278-292); `state = none` models a non-OK status response
    (the phase is skipped). -/
def combinedStatusStep (state : Option String) : Option CICheckStatus :=
  match state with
  | some s =>
    if s == "success" then some { status := "success", conclusion := some "success" }
    else if s == "failure" || s == "error" then some { status := "failure", conclusion := some s }
    else none
  | none => none

/-- The check-runs phase of one poll iteration (`audit.ts` lines 305-342);
    `checkRuns? = none` models a non-OK check-runs response. -/
def checkRunsStep (checkRuns? : Option (List CheckRun)) : Option CICheckStatus :=
  match checkRuns? with
  | none => none
  | some checkRuns =>
    if checkRuns.length > 0 then
      let allCompleted := checkRuns.all (fun c => c.status == "completed")
      let allPassed := checkRuns.all
        (fun c => c.status == "completed" && c.conclusion == some "success")
      let anyFailed := checkRuns.any
        (fun c => c.status == "completed" && c.conclusion == some "failure")
      if allCompleted then
        if allPassed then
          some { status := "success", conclusion := some "success", checks := some checkRuns }
        else if anyFailed then
          some { status := "failure", conclusion := some "failure", checks := some checkRuns }
        else none
      else none
    else none

/-- One full poll iteration: combined status first, then check runs; `none`
    means the loop keeps polling. -/
def pollStep (state : Option String) (checkRuns? : Option (List CheckRun)) :
    Option CICheckStatus :=
  match combinedStatusStep state with
  | some r => some r
  | none => checkRunsStep checkRuns?

/-- One poll observation: `none` models an iteration whose fetch threw (the
    `catch` logs and keeps polling); otherwise the combined status state and
    the check-run list. -/
def PollObs : Type := Option (Option String × Option (List CheckRun))

/-- `waitForCIChecks` from `audit.ts` lines 246-358, over the finite list
    of observations the loop can make before `maxWaitTime` elapses; when the
    list is exhausted the deadline has passed and the loop returns the
    pending/timeout status. -/
def waitForCIChecks : List PollObs → CICheckStatus
  | [] => { status := "pending", conclusion := some "timeout" }
  | none :: rest => waitForCIChecks rest
  | some (state, checkRuns?) :: rest =>
    match pollStep state checkRuns? with
    | some r => r
    | none => waitForCIChecks rest

/-! ## src/app/api/webhook/jira/route.ts -/

/-- The JSON body of the route's response together with its HTTP status. -/
structure WebhookResponse where
  httpStatus : Nat
  status : Option String := none
  error : Option String := none
  pr_url : Option String := none
  pr_number : Option Nat := none
  pr_error : Option String := none
  ci_status : Option String := none
  error_info_extracted : Option Bool := none
deriving DecidableEq, Repr

/-- Outcomes of the route's collaborator calls for one request:
    `generation` is `generateCode` (ok text or thrown message);
    `prCreation` is `createPRFromAICode` (ok `(prUrl, prNumber)` or thrown
    message); `ciOutcome` is `waitForCIChecks` (ok status or thrown);
    `markReadyOk` / `commentOk` record whether `markPRReadyForReview` /
    `addPRComment` succeed; the remaining flags parameterize
    `validateGeneratedCode` as above. -/
structure RouteEnv where
  generation : Except String String
  prCreation : Except String (String × Nat)
  ciOutcome : Except String CICheckStatus
  markReadyOk : Bool
  commentOk : Bool
  projectRoot : Bool
  tscAvailable : Bool
  eslintAvailable : Bool

/-- The pipeline portion of the `POST` handler (`route.ts` lines 126-337),
    entered with a well-formed ticket: error extraction, generation, parse,
    safety guard, validation, PR creation, CI wait, and the final response.
    A PR-creation error is recorded in `pr_error` and the handler still
    answers 200 with status `ai_generated`. -/
def handleTicket (ticket : JiraTicket) (env : RouteEnv) : WebhookResponse :=
  let errorInfo := extractErrorInfo ticket.description
  let extracted := errorInfo.errorMessage.isSome || errorInfo.stackTrace.isSome
  match env.generation with
  | Except.error _ => { httpStatus := 500, error := some "Failed to generate code" }
  | Except.ok generatedCode =>
    let fileChanges := parseAICodeOutput generatedCode
    let guardResult := validateFileChanges fileChanges
    if !guardResult.allowed then
      { httpStatus := 403, error := some "Safety guard blocked" }
    else
      let validationResult :=
        validateGeneratedCode fileChanges env.projectRoot env.tscAvailable env.eslintAvailable
      if !validationResult.success then
        { httpStatus := 400, error := some "Code validation failed" }
      else
        match env.prCreation with
        | Except.error msg =>
          { httpStatus := 200, status := some "ai_generated", pr_error := some msg,
            error_info_extracted := some extracted }
        | Except.ok (url, num) =>
          let ciStatus : Option String :=
            if num != 0 then
              some (match env.ciOutcome with
                | Except.error _ => "error"
                | Except.ok ci =>
                  if ci.status == "success" then
                    (if env.markReadyOk && env.commentOk then "success" else "error")
                  else if ci.status == "failure" then
                    (if env.commentOk then "failure" else "error")
                  else (if env.commentOk then "pending" else "error"))
            else none
          { httpStatus := 200, status := some "ai_generated", pr_url := some url,
            pr_number := some num, ci_status := ciStatus,
            error_info_extracted := some extracted }


/-! ## Helper lemmas -/

/-- Appending the empty string on the left is the identity. -/
theorem empty_append_str (s : String) : "" ++ s = s := by
  cases s
  rfl

/-- The parser's extension allowlist is contained in the guard's. -/
theorem parserExt_imp_guardExt (path : String) (h : hasParserExt path = true) :
    hasGuardExt path = true := by
  simp only [hasParserExt, List.any_eq_true] at h
  obtain ⟨e, he, hend⟩ := h
  have hsub : ∀ x ∈ parserExts, x ∈ guardExts := by decide
  simp only [hasGuardExt, List.any_eq_true]
  exact ⟨e, hsub e he, hend⟩

/-- Folding list-append over a function is the flattened map. -/
theorem foldl_append_flatten {α : Type} (g : α → List String) :
    ∀ (l : List α) (init : List String),
      l.foldl (fun acc fc => acc ++ g fc) init = init ++ (l.map g).flatten := by
  intro l
  induction l with
  | nil => intro init; simp
  | cons fc rest ih => intro init; simp [ih, List.append_assoc]

/-- `dedupFirstAux` returns a sublist of its input. -/
theorem dedupFirstAux_sublist : ∀ (l seen : List String), (dedupFirstAux seen l).Sublist l := by
  intro l
  induction l with
  | nil => intro seen; simp [dedupFirstAux]
  | cons x xs ih =>
    intro seen
    simp only [dedupFirstAux]
    by_cases h : x ∈ seen
    · simp only [if_pos h]
      exact (ih seen).trans (List.sublist_cons_self x xs)
    · simp only [if_neg h]
      exact (ih (x :: seen)).cons₂ x

/-- Elements produced by `dedupFirstAux` avoid the seen accumulator. -/
theorem dedupFirstAux_not_seen :
    ∀ (l seen : List String) (y : String), y ∈ dedupFirstAux seen l → y ∉ seen := by
  intro l
  induction l with
  | nil => intro seen y hy; simp [dedupFirstAux] at hy
  | cons x xs ih =>
    intro seen y hy
    simp only [dedupFirstAux] at hy
    by_cases h : x ∈ seen
    · rw [if_pos h] at hy
      exact ih seen y hy
    · rw [if_neg h] at hy
      rcases List.mem_cons.mp hy with rfl | hy2
      · exact h
      · intro hseen
        exact ih (x :: seen) y hy2 (List.mem_cons_of_mem x hseen)

/-- `dedupFirstAux` produces a duplicate-free list. -/
theorem dedupFirstAux_nodup : ∀ (l seen : List String), (dedupFirstAux seen l).Nodup := by
  intro l
  induction l with
  | nil => intro seen; simp [dedupFirstAux]
  | cons x xs ih =>
    intro seen
    simp only [dedupFirstAux]
    by_cases h : x ∈ seen
    · rw [if_pos h]; exact ih seen
    · rw [if_neg h]
      refine List.nodup_cons.mpr ⟨?_, ih (x :: seen)⟩
      intro hx
      exact dedupFirstAux_not_seen xs (x :: seen) x hx (List.mem_cons_self x seen)

/-! ## Claim C1 -/

/-- Claim C1: `validateFileChanges` evaluates its rules in order with first
    failure winning.  A list longer than 3 is rejected with every path
    listed; any entry whose lowercased path contains `.github/` makes the
    result rejected with that path among the blocked files (even for a
    singleton list); and a 2-entry list whose paths hit no blocked pattern,
    contain no `..`, do not start with `/` and carry an allowed extension is
    accepted. -/
theorem c1_safety_guard_rules (fileChanges : List FileChange) :
    (fileChanges.length > 3 →
      (validateFileChanges fileChanges).allowed = false ∧
      (validateFileChanges fileChanges).blockedFiles =
        some (fileChanges.map (fun fc => fc.path))) ∧
    (∀ fc ∈ fileChanges, strHasSub (strToLower fc.path) ".github/" = true →
      (validateFileChanges fileChanges).allowed = false ∧
      fc.path ∈ ((validateFileChanges fileChanges).blockedFiles.getD [])) ∧
    (fileChanges.length = 2 →
      (∀ fc ∈ fileChanges, isPathBlocked fc.path = false ∧ strHasSub fc.path ".." = false ∧
        strStartsWith fc.path "/" = false ∧ hasGuardExt fc.path = true) →
      (validateFileChanges fileChanges).allowed = true) := by
  refine ⟨?_, ?_, ?_⟩
  · intro h
    have h3 : fileChanges.length > MAX_FILE_CHANGES := h
    have heq : validateFileChanges fileChanges =
        { allowed := false
          reason := some ("Exceeds maximum file change limit of " ++ toString MAX_FILE_CHANGES)
          blockedFiles := some (fileChanges.map (fun fc => fc.path)) } := by
      unfold validateFileChanges
      rw [if_pos h3]
    rw [heq]
    exact ⟨rfl, rfl⟩
  · intro fc hfc hgit
    have hb : isPathBlocked fc.path = true := by
      simp only [isPathBlocked, BLOCKED_PATTERNS, List.any_eq_true]
      refine ⟨".github/", by simp, ?_⟩
      rw [show strToLower ".github/" = ".github/" from rfl]
      exact hgit
    by_cases hlen : fileChanges.length > MAX_FILE_CHANGES
    · have heq : validateFileChanges fileChanges =
          { allowed := false
            reason := some ("Exceeds maximum file change limit of " ++ toString MAX_FILE_CHANGES)
            blockedFiles := some (fileChanges.map (fun fc => fc.path)) } := by
        unfold validateFileChanges
        rw [if_pos hlen]
      rw [heq]
      exact ⟨rfl, by simpa using List.mem_map_of_mem (fun fc => fc.path) hfc⟩
    · have hmem : fc ∈ fileChanges.filter (fun fc => isPathBlocked fc.path) :=
        List.mem_filter.mpr ⟨hfc, hb⟩
      have hpos : (fileChanges.filter (fun fc => isPathBlocked fc.path)).length > 0 :=
        List.length_pos.mpr (List.ne_nil_of_mem hmem)
      have heq : validateFileChanges fileChanges =
          { allowed := false
            reason := some "Contains files in blocked paths"
            blockedFiles := some ((fileChanges.filter
              (fun fc => isPathBlocked fc.path)).map (fun fc => fc.path)) } := by
        unfold validateFileChanges
        rw [if_neg hlen, if_pos hpos]
      rw [heq]
      exact ⟨rfl, by simpa using List.mem_map_of_mem (fun fc => fc.path) hmem⟩
  · intro hlen hgood
    have hlt : ¬ fileChanges.length > MAX_FILE_CHANGES := by
      rw [hlen]; decide
    have hfil1 : fileChanges.filter (fun fc => isPathBlocked fc.path) = [] :=
      List.filter_eq_nil_iff.mpr (fun fc hfc => by simp [(hgood fc hfc).1])
    have hfil2 : fileChanges.filter (fun fc => isInvalidPath fc.path) = [] :=
      List.filter_eq_nil_iff.mpr (fun fc hfc => by
        obtain ⟨_, h1, h2, h3⟩ := hgood fc hfc
        simp [isInvalidPath, h1, h2, h3])
    unfold validateFileChanges
    rw [if_neg hlt]
    simp only [hfil1, hfil2, List.length_nil]
    rfl

/-- Witness for C1: a clean 2-entry list is accepted; a singleton under
    `.github/` is rejected. -/
theorem c1_safety_guard_rules_witness :
    (validateFileChanges [⟨"lib/a.ts", "x", none⟩, ⟨"lib/b.ts", "y", none⟩]).allowed = true ∧
    (validateFileChanges [⟨".github/workflows/ci.yml", "x", none⟩]).allowed = false := by
  constructor
  · exact (c1_safety_guard_rules _).2.2 rfl (by decide)
  · exact ((c1_safety_guard_rules _).2.1 ⟨".github/workflows/ci.yml", "x", none⟩
      (by simp) (by decide)).1

/-! ## Claim C2 -/

/-- Claim C2: every `FileChange` returned by `parseAICodeOutput` has a path
    without `..`, not starting with `/`, and with an extension in the
    parser's allowed set; rejected candidates are dropped (the output is a
    sublist of the pre-filter candidates), and the parser is a total
    function of its input, so it never throws. -/
theorem c2_parser_path_postfilter (aiOutput : String) :
    (∀ fc ∈ parseAICodeOutput aiOutput,
      strHasSub fc.path ".." = false ∧ strStartsWith fc.path "/" = false ∧
        hasParserExt fc.path = true) ∧
    (parseAICodeOutput aiOutput).Sublist (rawChanges aiOutput) := by
  constructor
  · intro fc hfc
    have h := List.of_mem_filter hfc
    simp only [isValidChange, Bool.and_eq_true, Bool.not_eq_true'] at h
    exact ⟨h.1.1, h.1.2, h.2⟩
  · exact List.filter_sublist _

/-- Witness for C2 at a concrete parse. -/
theorem c2_parser_path_postfilter_witness :
    strHasSub "a.ts" ".." = false ∧ strStartsWith "a.ts" "/" = false ∧
      hasParserExt "a.ts" = true :=
  (c2_parser_path_postfilter "File: a.ts\nimport x").1
    ⟨"a.ts", "import x", none⟩ (by decide)

/-! ## Claim C6 -/

/-- Claim C6: when the line scan produced zero segments and the trimmed
    output is non-empty, the whole trimmed output becomes exactly one
    change under `lib/ai-fix.ts` (which survives the post-filter); and for
    any non-empty input the candidate list is non-empty, so the parser
    returns `[]` only when every candidate is rejected by the post-filter. -/
theorem c6_parser_fallback (aiOutput : String) (hne : (jsTrim aiOutput).isEmpty = false) :
    (scanSegments aiOutput = [] →
      rawChanges aiOutput = [⟨"lib/ai-fix.ts", jsTrim aiOutput, none⟩] ∧
      parseAICodeOutput aiOutput = [⟨"lib/ai-fix.ts", jsTrim aiOutput, none⟩]) ∧
    rawChanges aiOutput ≠ [] ∧
    (parseAICodeOutput aiOutput = [] →
      ∀ fc ∈ rawChanges aiOutput, isValidChange fc = false) := by
  refine ⟨?_, ?_, ?_⟩
  · intro hscan
    have hraw : rawChanges aiOutput = [⟨"lib/ai-fix.ts", jsTrim aiOutput, none⟩] := by
      simp [rawChanges, hscan, hne]
    refine ⟨hraw, ?_⟩
    rw [parseAICodeOutput, hraw]
    have hp : isValidChange ⟨"lib/ai-fix.ts", jsTrim aiOutput, none⟩ = true := rfl
    simp [List.filter, hp]
  · intro hcontra
    cases hscan : (scanSegments aiOutput).isEmpty with
    | true =>
      rw [rawChanges] at hcontra
      simp [hscan, hne] at hcontra
    | false =>
      rw [rawChanges] at hcontra
      simp only [hscan, Bool.false_and, if_neg (by decide : ¬ false = true)] at hcontra
      rw [hcontra] at hscan
      simp at hscan
  · intro hempty fc hfc
    by_contra hv
    rw [Bool.not_eq_false] at hv
    have hmem : fc ∈ parseAICodeOutput aiOutput := List.mem_filter.mpr ⟨hfc, hv⟩
    rw [hempty] at hmem
    exact absurd hmem (List.not_mem_nil fc)

/-- Witness for C6: the unstructured input `"hello"` yields exactly the
    fallback change. -/
theorem c6_parser_fallback_witness :
    parseAICodeOutput "hello" = [⟨"lib/ai-fix.ts", "hello", none⟩] :=
  ((c6_parser_fallback "hello" (by decide)).1 (by decide)).2

/-! ## Claim C10 -/

/-- Claim C10: every parser-produced path already satisfies the guard's
    path-format rule (no `..`, no leading `/`, extension inside the guard's
    allowlist), so `validateFileChanges` never rejects parser output with
    reason `Contains invalid file paths`. -/
theorem c10_parser_output_passes_guard_format (aiOutput : String) :
    (∀ fc ∈ parseAICodeOutput aiOutput, isInvalidPath fc.path = false) ∧
    (validateFileChanges (parseAICodeOutput aiOutput)).reason ≠
      some "Contains invalid file paths" := by
  have hvalid : ∀ fc ∈ parseAICodeOutput aiOutput, isInvalidPath fc.path = false := by
    intro fc hfc
    have h := List.of_mem_filter hfc
    simp only [isValidChange, Bool.and_eq_true, Bool.not_eq_true'] at h
    simp [isInvalidPath, h.1.1, h.1.2, parserExt_imp_guardExt _ h.2]
  refine ⟨hvalid, ?_⟩
  have hfil : (parseAICodeOutput aiOutput).filter (fun fc => isInvalidPath fc.path) = [] :=
    List.filter_eq_nil_iff.mpr (fun fc hfc => by simp [hvalid fc hfc])
  by_cases h1 : (parseAICodeOutput aiOutput).length > MAX_FILE_CHANGES
  · unfold validateFileChanges
    rw [if_pos h1]
    simp only [ne_eq, Option.some.injEq]
    decide
  · unfold validateFileChanges
    rw [if_neg h1]
    by_cases h2 : ((parseAICodeOutput aiOutput).filter
        (fun fc => isPathBlocked fc.path)).length > 0
    · rw [if_pos h2]
      simp only [ne_eq, Option.some.injEq]
      decide
    · rw [if_neg h2]
      simp only [hfil, List.length_nil]
      simp

/-! ## Claim C3 -/

/-- Claim C3 (code bug): the request body built by `createPullRequest`
    summarizes the ticket, lists every modified file and flags the change as
    requiring human review, but carries no `draft` field (`draft = none`),
    so the pull request is not opened in draft state even though the route
    logs `Pull Request created (draft)` and `markPRReadyForReview` exists to
    flip the draft flag off. -/
theorem c3_createPullRequest_no_draft_flag :
    (createPullRequest "automata/BUG-1-ai-fix"
        ⟨"1", "BUG-1", "Null pointer", "TypeError: cannot read x", none⟩
        [⟨"lib/fix.ts", "export const fixed = true;", none⟩] none "main").draft = none ∧
    strHasSub (createPullRequest "automata/BUG-1-ai-fix"
        ⟨"1", "BUG-1", "Null pointer", "TypeError: cannot read x", none⟩
        [⟨"lib/fix.ts", "export const fixed = true;", none⟩] none "main").body
      "requires human review" = true ∧
    strHasSub (createPullRequest "automata/BUG-1-ai-fix"
        ⟨"1", "BUG-1", "Null pointer", "TypeError: cannot read x", none⟩
        [⟨"lib/fix.ts", "export const fixed = true;", none⟩] none "main").body
      "- `lib/fix.ts`" = true ∧
    strHasSub (createPullRequest "automata/BUG-1-ai-fix"
        ⟨"1", "BUG-1", "Null pointer", "TypeError: cannot read x", none⟩
        [⟨"lib/fix.ts", "export const fixed = true;", none⟩] none "main").body
      "**Summary:** Null pointer" = true := by
  decide

/-! ## Claim C4 -/

/-- Counterexample to C4 as stated: a poll observation where a completed
    check run concluded `failure` while another run is still in progress
    (combined status pending) does not make the iteration return failure —
    the loop keeps polling and, with no further observations, ends in the
    pending/timeout status. -/
theorem c4_ci_failure_transition_counterexample :
    ([⟨"build", "completed", some "failure"⟩, ⟨"tests", "in_progress", none⟩] :
        List CheckRun).any
      (fun c => c.status == "completed" && c.conclusion == some "failure") = true ∧
    pollStep (some "pending")
      (some [⟨"build", "completed", some "failure"⟩, ⟨"tests", "in_progress", none⟩]) =
      none ∧
    waitForCIChecks [some (some "pending",
        some [⟨"build", "completed", some "failure"⟩, ⟨"tests", "in_progress", none⟩])] =
      ⟨"pending", some "timeout", none⟩ := by
  decide

/-- Claim C4 as amended: the loop transitions to failure when the combined
    commit status reports `failure` or `error`, or when the check-run list
    is non-empty, every check run is completed, and at least one concluded
    exactly `failure`. -/
theorem c4_ci_failure_amended (state : Option String) (runs : List CheckRun)
    (checkRuns? : Option (List CheckRun)) (rest : List PollObs) :
    ((state = some "failure" ∨ state = some "error") →
      pollStep state checkRuns? = some ⟨"failure", state, none⟩ ∧
      waitForCIChecks (some (state, checkRuns?) :: rest) = ⟨"failure", state, none⟩) ∧
    ((∀ s, state = some s → s ≠ "success" ∧ s ≠ "failure" ∧ s ≠ "error") →
      runs ≠ [] →
      runs.all (fun c => c.status == "completed") = true →
      runs.any (fun c => c.status == "completed" && c.conclusion == some "failure") = true →
      pollStep state (some runs) = some ⟨"failure", some "failure", some runs⟩ ∧
      waitForCIChecks (some (state, some runs) :: rest) =
        ⟨"failure", some "failure", some runs⟩) := by
  constructor
  · intro h
    rcases h with rfl | rfl <;> exact ⟨rfl, rfl⟩
  · intro hst hne hall hany
    have hcs : combinedStatusStep state = none := by
      cases state with
      | none => rfl
      | some s =>
        obtain ⟨h1, h2, h3⟩ := hst s rfl
        simp [combinedStatusStep, h1, h2, h3]
    have hap : runs.all
        (fun c => c.status == "completed" && c.conclusion == some "success") = false := by
      rcases List.any_eq_true.mp hany with ⟨c, hc, hcp⟩
      simp only [Bool.and_eq_true, beq_iff_eq] at hcp
      by_contra hcontra
      rw [Bool.not_eq_false] at hcontra
      have hcc := List.all_eq_true.mp hcontra c hc
      simp only [Bool.and_eq_true, beq_iff_eq] at hcc
      rw [hcp.2] at hcc
      exact absurd hcc.2 (by simp)
    have hlp : runs.length > 0 := List.length_pos.mpr hne
    have hps : pollStep state (some runs) = some ⟨"failure", some "failure", some runs⟩ := by
      simp only [pollStep, hcs, checkRunsStep]
      rw [if_pos hlp, if_pos hall, if_neg (by simp [hap]), if_pos hany]
    refine ⟨hps, ?_⟩
    have hunfold : waitForCIChecks (some (state, some runs) :: rest) =
        match pollStep state (some runs) with
        | some r => r
        | none => waitForCIChecks rest := rfl
    rw [hunfold, hps]

/-- Witness for C4 (amended): a single-run observation, completed with
    conclusion `failure`, under a skipped combined status, makes the loop
    return failure immediately. -/
theorem c4_ci_failure_amended_witness :
    pollStep none (some [⟨"build", "completed", some "failure"⟩]) =
      some ⟨"failure", some "failure", some [⟨"build", "completed", some "failure"⟩]⟩ ∧
    waitForCIChecks [some (none, some [⟨"build", "completed", some "failure"⟩])] =
      ⟨"failure", some "failure", some [⟨"build", "completed", some "failure"⟩]⟩ :=
  (c4_ci_failure_amended none [⟨"build", "completed", some "failure"⟩]
      (some [⟨"build", "completed", some "failure"⟩]) []).2
    (fun s hs => Option.noConfusion hs) (by decide) (by decide) (by decide)

/-! ## Claim C5 -/

/-- Characterization of `validateGeneratedCode` when there is at least one
    code file: its errors are the concatenated balance errors of the code
    files, and success is their emptiness. -/
theorem validateGeneratedCode_errors_eq (fileChanges : List FileChange)
    (projectRoot tscAvailable eslintAvailable : Bool)
    (hne : (fileChanges.filter (fun fc => isCodeFile fc.path)).isEmpty = false) :
    (validateGeneratedCode fileChanges projectRoot tscAvailable eslintAvailable).errors =
      ((fileChanges.filter (fun fc => isCodeFile fc.path)).map balanceErrors).flatten ∧
    (validateGeneratedCode fileChanges projectRoot tscAvailable eslintAvailable).success =
      ((fileChanges.filter (fun fc => isCodeFile fc.path)).map
        balanceErrors).flatten.isEmpty := by
  have hcond : ¬ ((fileChanges.filter (fun fc => isCodeFile fc.path)).isEmpty = true) := by
    simp [hne]
  have h1 : (validateGeneratedCode fileChanges projectRoot tscAvailable
      eslintAvailable).errors =
      (fileChanges.filter (fun fc => isCodeFile fc.path)).foldl
        (fun acc fc => acc ++ balanceErrors fc) [] := by
    unfold validateGeneratedCode
    rw [if_neg hcond]
  have h2 : (validateGeneratedCode fileChanges projectRoot tscAvailable
      eslintAvailable).success =
      ((fileChanges.filter (fun fc => isCodeFile fc.path)).foldl
        (fun acc fc => acc ++ balanceErrors fc) []).isEmpty := by
    unfold validateGeneratedCode
    rw [if_neg hcond]
  constructor
  · rw [h1, foldl_append_flatten, List.nil_append]
  · rw [h2, foldl_append_flatten, List.nil_append]

/-- Counterexample to C5 as stated: a `.js` code file with unbalanced braces
    is not balance-checked at all — validation succeeds with no errors. -/
theorem c5_js_file_not_balance_checked :
    countChar obChar "\x7b" ≠ countChar cbChar "\x7b" ∧
    isCodeFile "lib/broken.js" = true ∧
    (validateGeneratedCode [⟨"lib/broken.js", "\x7b", none⟩] true true true).success = true ∧
    (validateGeneratedCode [⟨"lib/broken.js", "\x7b", none⟩] true true true).errors = [] := by
  decide

/-- Claim C5 as amended: the balance count runs on each code file (raw
    path with a `ts`/`tsx`/`js`/`jsx` extension) whose join-normalized temp
    path ends in `.ts`/`.tsx` and contains neither `tsconfig` nor `package`
    (so `.js`/`.jsx` files are never balance-checked); an unbalanced such
    file records an `Unmatched braces` error and forces `success = false`,
    while on files with no balance errors the validator succeeds with no
    errors regardless of type-checker or linter availability (their absence
    only ever adds warnings). -/
theorem c5_validation_amended (fileChanges : List FileChange)
    (projectRoot tscAvailable eslintAvailable : Bool) :
    (∀ fc ∈ fileChanges, isCodeFile fc.path = true →
      isTsPath (joinedTempPath fc.path) = true →
      strHasSub (joinedTempPath fc.path) "tsconfig" = false →
      strHasSub (joinedTempPath fc.path) "package" = false →
      countChar obChar fc.content ≠ countChar cbChar fc.content →
      (validateGeneratedCode fileChanges projectRoot tscAvailable
        eslintAvailable).success = false ∧
      (fc.path ++ ": Unmatched braces") ∈
        (validateGeneratedCode fileChanges projectRoot tscAvailable eslintAvailable).errors) ∧
    ((∀ fc ∈ fileChanges, balanceErrors fc = []) →
      (validateGeneratedCode fileChanges projectRoot tscAvailable
        eslintAvailable).success = true ∧
      (validateGeneratedCode fileChanges projectRoot tscAvailable
        eslintAvailable).errors = []) := by
  constructor
  · intro fc hfc hcode hts hcfg hpkg hbal
    have hmemc : fc ∈ fileChanges.filter (fun fc => isCodeFile fc.path) :=
      List.mem_filter.mpr ⟨hfc, hcode⟩
    have hne : (fileChanges.filter (fun fc => isCodeFile fc.path)).isEmpty = false := by
      cases hE : (fileChanges.filter (fun fc => isCodeFile fc.path)).isEmpty with
      | false => rfl
      | true =>
        rw [List.isEmpty_iff] at hE
        exact absurd (hE ▸ hmemc) (List.not_mem_nil fc)
    obtain ⟨he, hs⟩ := validateGeneratedCode_errors_eq fileChanges
      projectRoot tscAvailable eslintAvailable hne
    have hbe : (fc.path ++ ": Unmatched braces") ∈ balanceErrors fc := by
      unfold balanceErrors
      rw [if_pos (by simp [hts, hcfg, hpkg]), if_pos (by simpa using hbal)]
      exact List.mem_append_left _ (List.mem_append_left _ (List.mem_singleton.mpr rfl))
    have hmem : (fc.path ++ ": Unmatched braces") ∈
        (validateGeneratedCode fileChanges projectRoot tscAvailable
          eslintAvailable).errors := by
      rw [he]
      exact List.mem_flatten.mpr ⟨balanceErrors fc,
        List.mem_map_of_mem balanceErrors hmemc, hbe⟩
    refine ⟨?_, hmem⟩
    rw [hs]
    cases hF : ((fileChanges.filter (fun fc => isCodeFile fc.path)).map
        balanceErrors).flatten.isEmpty with
    | false => rfl
    | true =>
      rw [List.isEmpty_iff] at hF
      rw [he, hF] at hmem
      exact absurd hmem (List.not_mem_nil _)
  · intro hall
    cases hE : (fileChanges.filter (fun fc => isCodeFile fc.path)).isEmpty with
    | true =>
      have hcond : (fileChanges.filter (fun fc => isCodeFile fc.path)).isEmpty = true := hE
      constructor
      · unfold validateGeneratedCode
        rw [if_pos hcond]
      · unfold validateGeneratedCode
        rw [if_pos hcond]
    | false =>
      obtain ⟨he, hs⟩ := validateGeneratedCode_errors_eq fileChanges
        projectRoot tscAvailable eslintAvailable hE
      have hflat : ((fileChanges.filter (fun fc => isCodeFile fc.path)).map
          balanceErrors).flatten = [] := by
        refine List.flatten_eq_nil_iff.mpr ?_
        intro x hx
        rcases List.mem_map.mp hx with ⟨fc, hfc, rfl⟩
        exact hall fc (List.mem_of_mem_filter hfc)
      constructor
      · rw [hs, hflat]
        rfl
      · rw [he, hflat]

/-- Witness for C5 (amended): an unbalanced `.ts` file fails validation
    with the brace error recorded; a balanced `.ts` file passes with no
    errors even with no tools available. -/
theorem c5_validation_amended_witness :
    (validateGeneratedCode [⟨"lib/a.ts", "\x7b", none⟩] true true true).success = false ∧
    ("lib/a.ts: Unmatched braces") ∈
      (validateGeneratedCode [⟨"lib/a.ts", "\x7b", none⟩] true true true).errors ∧
    (validateGeneratedCode [⟨"tsconfig/../a.ts", "\x7b", none⟩] true true true).success =
      false ∧
    (validateGeneratedCode [⟨"lib/ok.ts", "ab", none⟩] false false false).success = true ∧
    (validateGeneratedCode [⟨"lib/ok.ts", "ab", none⟩] false false false).errors = [] := by
  refine ⟨?_, ?_, ?_, ?_, ?_⟩
  · exact ((c5_validation_amended [⟨"lib/a.ts", "\x7b", none⟩] true true true).1
      ⟨"lib/a.ts", "\x7b", none⟩ (by simp) (by decide) (by decide) (by decide) (by decide)
      (by decide)).1
  · exact ((c5_validation_amended [⟨"lib/a.ts", "\x7b", none⟩] true true true).1
      ⟨"lib/a.ts", "\x7b", none⟩ (by simp) (by decide) (by decide) (by decide) (by decide)
      (by decide)).2
  · exact ((c5_validation_amended [⟨"tsconfig/../a.ts", "\x7b", none⟩] true true true).1
      ⟨"tsconfig/../a.ts", "\x7b", none⟩ (by simp) (by decide) (by decide) (by decide)
      (by decide) (by decide)).1
  · exact ((c5_validation_amended [⟨"lib/ok.ts", "ab", none⟩] false false false).2
      (by decide)).1
  · exact ((c5_validation_amended [⟨"lib/ok.ts", "ab", none⟩] false false false).2
      (by decide)).2

/-! ## Claim C7 -/

/-- Counterexample to C7 as stated: with both the first and the third
    stack-trace pattern matching, the later pattern appends its match to the
    already-set `stackTrace` field instead of leaving it untouched. -/
theorem c7_stacktrace_append_counterexample :
    (extractErrorInfo "TypeError: boom").stackTrace = some "TypeError: boom\n" ∧
    (extractErrorInfo "TypeError: boom\nStackTrace: at foo").stackTrace =
      some "TypeError: boom\nStackTrace: at foo\n" ∧
    (extractErrorInfo "TypeError: boom\nStackTrace: at foo").stackTrace ≠
      some "TypeError: boom\n" := by
  decide

/-- Claim C7 as amended: the error-message and test-failure families do take
    the first matching pattern and break (no overwriting), but the
    stack-trace family is cumulative — every matching pattern appends its
    first match followed by a newline, in pattern order. -/
theorem c7_extract_amended (d : String) :
    (∀ a, matchM1 d = some a → (extractErrorInfo d).errorMessage = some a) ∧
    (∀ a, matchT1 d = some a → (extractErrorInfo d).testFailure = some a) ∧
    (∀ a b, matchP1 d = some a → matchP2 d = none → matchP3 d = some b →
      (extractErrorInfo d).stackTrace = some (a ++ "\n" ++ b ++ "\n")) := by
  refine ⟨?_, ?_, ?_⟩
  · intro a ha
    simp [extractErrorInfo, firstSome, ha]
  · intro a ha
    simp [extractErrorInfo, firstSome, ha]
  · intro a b ha hp2 hp3
    simp only [extractErrorInfo, ha, hp2, hp3, List.filterMap, id]
    simp [empty_append_str]

/-- Witness for C7 (amended) on a description matched by the first
    error-message pattern, the first test-failure pattern, and stack-trace
    patterns 1 and 3. -/
theorem c7_extract_amended_witness :
    (extractErrorInfo
        "TypeError: boom\nTest failed: assertion\nStackTrace: at foo").errorMessage =
      some "boom" ∧
    (extractErrorInfo
        "TypeError: boom\nTest failed: assertion\nStackTrace: at foo").testFailure =
      some "assertion" ∧
    (extractErrorInfo
        "TypeError: boom\nTest failed: assertion\nStackTrace: at foo").stackTrace =
      some ("TypeError: boom" ++ "\n" ++ "StackTrace: at foo" ++ "\n") := by
  refine ⟨?_, ?_, ?_⟩
  · exact (c7_extract_amended _).1 "boom" (by decide)
  · exact (c7_extract_amended _).2.1 "assertion" (by decide)
  · exact (c7_extract_amended _).2.2 "TypeError: boom" "StackTrace: at foo"
      (by decide) (by decide) (by decide)

/-! ## Claim C8 -/

/-- Counterexample to C8 as stated: the source caps at 20 tokens before
    deduplicating, so on 21 filtered tokens containing one duplicate it
    returns 19 terms and loses the 21st distinct token, while the claimed
    deduplicate-then-cap pipeline returns 20 terms including it. -/
theorem c8_keywords_cap_before_dedup_counterexample :
    extractKeywords ⟨"", "K",
        "dupdup dupdup tokena tokenb tokenc tokend tokene tokenf tokeng tokenh tokeni tokenj tokenk tokenl tokenm tokenn tokeno tokenp tokenq tokenr tokens",
        "", none⟩ ≠
      extractKeywordsClaim ⟨"", "K",
        "dupdup dupdup tokena tokenb tokenc tokend tokene tokenf tokeng tokenh tokeni tokenj tokenk tokenl tokenm tokenn tokeno tokenp tokenq tokenr tokens",
        "", none⟩ ∧
    (extractKeywords ⟨"", "K",
        "dupdup dupdup tokena tokenb tokenc tokend tokene tokenf tokeng tokenh tokeni tokenj tokenk tokenl tokenm tokenn tokeno tokenp tokenq tokenr tokens",
        "", none⟩).length = 19 ∧
    (extractKeywordsClaim ⟨"", "K",
        "dupdup dupdup tokena tokenb tokenc tokend tokene tokenf tokeng tokenh tokeni tokenj tokenk tokenl tokenm tokenn tokeno tokenp tokenq tokenr tokens",
        "", none⟩).length = 20 ∧
    "tokens" ∉ extractKeywords ⟨"", "K",
        "dupdup dupdup tokena tokenb tokenc tokend tokene tokenf tokeng tokenh tokeni tokenj tokenk tokenl tokenm tokenn tokeno tokenp tokenq tokenr tokens",
        "", none⟩ ∧
    "tokens" ∈ extractKeywordsClaim ⟨"", "K",
        "dupdup dupdup tokena tokenb tokenc tokend tokene tokenf tokeng tokenh tokeni tokenj tokenk tokenl tokenm tokenn tokeno tokenp tokenq tokenr tokens",
        "", none⟩ := by
  decide

/-- Claim C8 as amended: `extractKeywords` lower-cases, tokenizes on
    whitespace, filters short, stop-word and non-alphabetic tokens, takes
    the first 20 surviving tokens and then deduplicates preserving
    first-seen order; the result is always duplicate-free, has at most 20
    elements, and is an order-preserving sublist of the first 20 filtered
    tokens.  The function is pure, so identical inputs give identical
    outputs. -/
theorem c8_keywords_amended (ticket : JiraTicket) :
    (extractKeywords ticket).Nodup ∧
    (extractKeywords ticket).length ≤ 20 ∧
    (extractKeywords ticket).Sublist ((filteredTokens ticket).take 20) ∧
    extractKeywords ticket = dedupFirst ((filteredTokens ticket).take 20) := by
  refine ⟨dedupFirstAux_nodup _ _, ?_, dedupFirstAux_sublist _ _, rfl⟩
  exact le_trans (List.Sublist.length_le (dedupFirstAux_sublist _ _))
    (List.length_take_le _ _)

/-! ## Claim C9 -/

/-- Claim C9: after successful generation, a passing safety guard and a
    passing validation, a thrown pull-request submission does not fail the
    request — the handler answers 200 with status `ai_generated`, the
    submission error recorded in `pr_error`, and no PR url or number. -/
theorem c9_submission_error_partial_success (ticket : JiraTicket) (env : RouteEnv)
    (code msg : String)
    (hg : env.generation = Except.ok code)
    (hguard : (validateFileChanges (parseAICodeOutput code)).allowed = true)
    (hval : (validateGeneratedCode (parseAICodeOutput code) env.projectRoot
      env.tscAvailable env.eslintAvailable).success = true)
    (hpr : env.prCreation = Except.error msg) :
    handleTicket ticket env =
      { httpStatus := 200, status := some "ai_generated", error := none,
        pr_url := none, pr_number := none, pr_error := some msg, ci_status := none,
        error_info_extracted :=
          some ((extractErrorInfo ticket.description).errorMessage.isSome ||
            (extractErrorInfo ticket.description).stackTrace.isSome) } := by
  simp [handleTicket, hg, hpr, hguard, hval]

/-- Witness for C9: a concrete environment where generation succeeds on
    `"hello"` and submission throws `"boom"`. -/
theorem c9_submission_error_partial_success_witness :
    handleTicket ⟨"1", "BUG-1", "s", "d", none⟩
      ⟨Except.ok "hello", Except.error "boom", Except.ok ⟨"pending", none, none⟩,
        false, false, false, false, false⟩ =
      { httpStatus := 200, status := some "ai_generated", error := none, pr_url := none,
        pr_number := none, pr_error := some "boom", ci_status := none,
        error_info_extracted := some false } := by
  have h := c9_submission_error_partial_success ⟨"1", "BUG-1", "s", "d", none⟩
    ⟨Except.ok "hello", Except.error "boom", Except.ok ⟨"pending", none, none⟩,
      false, false, false, false, false⟩ "hello" "boom" rfl (by decide) (by decide) rfl
  exact h.trans (by decide)

/-- Witness for C10 at the fallback change of a concrete parse. -/
theorem c10_parser_output_passes_guard_format_witness :
    isInvalidPath "lib/ai-fix.ts" = false :=
  (c10_parser_output_passes_guard_format "hello").1
    ⟨"lib/ai-fix.ts", "hello", none⟩ (by decide)
